import Mathlib

/-!
Verification of `repo_status_checker.py` (git repository status checker).

The Python program shells out to git, parses the textual replies, walks a
directory tree, and prints a categorized report.  We embed it shallowly:

* every external `subprocess.run` call is represented by a `SubprocessResult`
  value (either a captured `(stdout, stderr, returncode)` triple or a raised
  exception carrying a message), supplied by the environment `RepoEnv`;
* the Python string operations used by the program (`str.strip`, `str.lower`,
  `str.splitlines`, `str.startswith`, the `in` substring test, `int(...)`)
  are re-implemented here with structural recursion over `List Char`, with
  the Python semantics (for `splitlines` we cover the separators `\n`, `\r`,
  `\r\n`, which are the only ones git can emit; for `int` we cover optional
  sign plus decimal digits, which covers every output of
  `git rev-list --count`);
* the filesystem seen by `os.walk` is a finite rose tree `FsTree`; the
  `dirnames` list of a directory is its `children`, its plain files are
  `files`, and the repository-classification environment of the directory is
  stored at the node.  Paths are represented by the list of directory names
  from the scan root (the root itself is `[]`), mirroring the path strings
  `os.walk` produces (which are pairwise distinct exactly when sibling names
  are distinct, as on a real filesystem).
-/

/-- Outcome of one `subprocess.run(["git", ...])` call as seen by the Python
`try`/`except` block in `run_git`: either the process ran and produced a
raw stdout, raw stderr and a return code, or launching it raised an
exception whose `str(e)` is `msg`. -/
inductive SubprocessResult where
  | ok (stdout stderr : String) (returncode : Int)
  | exn (msg : String)
deriving DecidableEq, Repr

/-- The whitespace test of Python `str.strip` (ASCII part): space, tab,
newline, carriage return, vertical tab, form feed. -/
def py_isspace (c : Char) : Bool :=
  c = ' ' || c = '\t' || c = '\n' || c = '\r' || c = '\x0b' || c = '\x0c'

/-- Strip `py_isspace` characters from both ends of a character list. -/
def py_strip_list (l : List Char) : List Char :=
  ((l.dropWhile py_isspace).reverse.dropWhile py_isspace).reverse

/-- Python `s.strip()`. -/
def py_strip (s : String) : String := ⟨py_strip_list s.data⟩

/-- Python `str.lower` on one character (ASCII range, which is all the
program ever compares). -/
def py_lower_char (c : Char) : Char :=
  if 'A' ≤ c && c ≤ 'Z' then Char.ofNat (c.toNat + 32) else c

/-- Python `s.lower()`. -/
def py_lower (s : String) : String := ⟨s.data.map py_lower_char⟩

/-- Helper for `py_splitlines`: accumulate the current line (reversed) and
split at `\r\n`, `\r` or `\n`.  A final unterminated segment is emitted only
when non-empty, as in Python. -/
def splitlines_aux : List Char → List Char → List (List Char)
  | [], cur => if cur.isEmpty then [] else [cur.reverse]
  | '\r' :: '\n' :: rest, cur => cur.reverse :: splitlines_aux rest []
  | '\r' :: rest, cur => cur.reverse :: splitlines_aux rest []
  | '\n' :: rest, cur => cur.reverse :: splitlines_aux rest []
  | c :: rest, cur => splitlines_aux rest (c :: cur)

/-- Python `s.splitlines()`. -/
def py_splitlines (s : String) : List String := (splitlines_aux s.data []).map String.mk

/-- Python `s.startswith(pre)`. -/
def py_startswith (s pre : String) : Bool := pre.data.isPrefixOf s.data

/-- Helper for `py_contains`: does `sub` occur contiguously in the list? -/
def list_contains_sub (sub : List Char) : List Char → Bool
  | [] => sub.isEmpty
  | c :: rest => sub.isPrefixOf (c :: rest) || list_contains_sub sub rest

/-- Python `sub in s` (substring containment). -/
def py_contains (s sub : String) : Bool := list_contains_sub sub.data s.data

/-- Parse a non-empty list of decimal digits. -/
def digits_to_nat : List Char → Option Nat
  | [] => none
  | l =>
    if l.all Char.isDigit then
      some (l.foldl (fun n c => 10 * n + (c.toNat - 48)) 0)
    else none

/-- Python `int(s)` for the decimal outputs git produces: optional
whitespace, optional sign, digits; `none` models the `ValueError`. -/
def py_int (s : String) : Option Int :=
  let t := py_strip s
  if py_startswith t "-" then (digits_to_nat t.data.tail).map (fun n => -(n : Int))
  else if py_startswith t "+" then (digits_to_nat t.data.tail).map (fun n => (n : Int))
  else (digits_to_nat t.data).map (fun n => (n : Int))

/-- Python `int(s or 0)` as used in `ahead_behind`: an empty string is
falsy, so it converts to `int(0) = 0` without raising; otherwise `int(s)`
may raise (`none`). -/
def py_int_or_zero (s : String) : Option Int :=
  if s = "" then some 0 else py_int s

/-- Embedding of `run_git` (source lines 50-64): run the command and return
`(result.stdout.strip(), result.stderr.strip(), result.returncode)`; the
`except` branch turns any launch failure into `("", str(e), 1)`, so every
call returns a triple and no exception escapes. -/
def run_git : SubprocessResult → String × String × Int
  | SubprocessResult.ok stdout stderr returncode => (py_strip stdout, py_strip stderr, returncode)
  | SubprocessResult.exn msg => ("", msg, 1)

/-- The subprocess results for the seven git command shapes the classifier
can issue in one repository.  Each field is the outcome the outside world
would give to the corresponding `run_git` call. -/
structure RepoEnv where
  /-- Embeds `git rev-parse --is-bare-repository` -/
  bare_res : SubprocessResult
  /-- Embeds `git rev-parse --abbrev-ref HEAD` -/
  branch_res : SubprocessResult
  /-- Embeds `git status --porcelain` -/
  status_res : SubprocessResult
  /-- Embeds `git rev-parse --abbrev-ref <branch>@{upstream}` -/
  upstream_res : SubprocessResult
  /-- Embeds `git rev-list --count <upstream>..HEAD` -/
  ahead_res : SubprocessResult
  /-- Embeds `git rev-list --count HEAD..<upstream>` -/
  behind_res : SubprocessResult
  /-- Embeds `git log --format=<author format> <upstream>..HEAD` -/
  log_res : SubprocessResult
deriving DecidableEq, Repr

/-- Embeds `is_bare_repo` (lines 73-76): stdout, lowercased, equals `"true"`. -/
def is_bare_repo (e : RepoEnv) : Bool :=
  py_lower (run_git e.bare_res).1 = "true"

/-- Embeds `current_branch_or_head` (lines 79-82): stdout of the branch query,
`"HEAD"` when detached. -/
def current_branch_or_head (e : RepoEnv) : String :=
  (run_git e.branch_res).1

/-- Embeds `has_uncommitted` (lines 85-88): some status line is non-empty and does
not start with the untracked marker `"??"`. -/
def has_uncommitted (e : RepoEnv) : Bool :=
  (py_splitlines (run_git e.status_res).1).any
    (fun line => !(line = "") && !(py_startswith line "??"))

/-- Embeds `has_untracked` (lines 91-94): some status line starts with `"??"`. -/
def has_untracked (e : RepoEnv) : Bool :=
  (py_splitlines (run_git e.status_res).1).any (fun line => py_startswith line "??")

/-- Embeds `upstream_ref` (lines 97-102): `None` when the query exits non-zero or
its stderr contains `"fatal"` (case-insensitively), else the stdout.  The
`branch` argument only shapes the command string, so the model ignores it. -/
def upstream_ref (e : RepoEnv) (branch : String) : Option String :=
  let r := run_git e.upstream_res
  if r.2.2 ≠ 0 || py_contains (py_lower r.2.1) "fatal" then none
  else some r.1

/-- Embeds `ahead_behind` (lines 105-116): both counts are converted inside one
`try`, so a `ValueError` from either conversion yields `(0, 0)`.  The
`upstream` argument only shapes the command strings. -/
def ahead_behind (e : RepoEnv) (upstream : String) : Int × Int :=
  let ahead_out := (run_git e.ahead_res).1
  let behind_out := (run_git e.behind_res).1
  match py_int_or_zero ahead_out, py_int_or_zero behind_out with
  | some a, some b => (a, b)
  | _, _ => (0, 0)

/-- Embeds `unpushed_authors` (lines 119-122): the set of stripped, non-blank
lines of the log output; the Python `set` is modelled as a deduplicated
list. -/
def unpushed_authors (e : RepoEnv) (upstream : String) : List String :=
  ((py_splitlines (run_git e.log_res).1).map py_strip).filter (fun l => !(l = "")) |>.dedup

/-- The nine status categories (keys of `CATEGORIES`, lines 37-47). -/
inductive Status where
  | bare
  | detached_head
  | uncommitted
  | untracked
  | no_upstream
  | diverged
  | unpushed_ahead
  | behind
  | clean
deriving DecidableEq, Repr

/-- The `extra` component of `get_repo_status`: Python `None`, an
`(ahead, behind)` tuple, or an author set. -/
inductive Extra where
  | none
  | div (ahead behind : Int)
  | authors (l : List String)
deriving DecidableEq, Repr

/-- Embeds `get_repo_status` (lines 125-159): the classification decision chain.
`if not up` is true in Python both for `None` and for the empty string. -/
def get_repo_status (e : RepoEnv) : Status × Extra :=
  if is_bare_repo e then (Status.bare, Extra.none)
  else
    let branch := current_branch_or_head e
    if branch = "HEAD" then (Status.detached_head, Extra.none)
    else if has_uncommitted e then (Status.uncommitted, Extra.none)
    else if has_untracked e then (Status.untracked, Extra.none)
    else
      match upstream_ref e branch with
      | Option.none => (Status.no_upstream, Extra.none)
      | Option.some up =>
        if up = "" then (Status.no_upstream, Extra.none)
        else
          let ab := ahead_behind e up
          if ab.1 > 0 ∧ ab.2 > 0 then (Status.diverged, Extra.div ab.1 ab.2)
          else if ab.1 > 0 then (Status.unpushed_ahead, Extra.authors (unpushed_authors e up))
          else if ab.2 > 0 then (Status.behind, Extra.none)
          else (Status.clean, Extra.none)

/-- The filesystem under the scan root as seen by `os.walk`: a directory
has a name, a list of plain-file names, the git-answer environment used if
it gets classified, and its subdirectories. -/
inductive FsTree where
  | dir (name : String) (files : List String) (env : RepoEnv) (children : List FsTree)

/-- Name of a directory node. -/
def FsTree.name : FsTree → String
  | FsTree.dir n _ _ _ => n

/-- Plain files directly inside a directory node. -/
def FsTree.files : FsTree → List String
  | FsTree.dir _ f _ _ => f

/-- Classification environment of a directory node. -/
def FsTree.env : FsTree → RepoEnv
  | FsTree.dir _ _ e _ => e

/-- Subdirectories of a directory node. -/
def FsTree.children : FsTree → List FsTree
  | FsTree.dir _ _ _ c => c

/-- Embeds `is_git_dir` (lines 67-70): the directory contains an entry named
`.git`, either a subdirectory (`os.path.isdir`) or a plain file
(`os.path.isfile`, for linked worktrees). -/
def is_git_dir (t : FsTree) : Bool :=
  t.children.any (fun c => c.name == ".git") || t.files.contains ".git"

/-- One classified repository produced by the walk: its path (list of
directory names below the scan root; the root itself is `[]`) and the
result of `get_repo_status`. -/
structure ScanRecord where
  path : List String
  status : Status
  extra : Extra
deriving DecidableEq, Repr

mutual
/-- The body of the `os.walk` loop in `scan_repos` (lines 178-202) at one
visited directory.  A git directory is classified and recorded; then
`.git` is removed from `dirnames` and, when non-recursive, `dirnames` is
cleared so the walk does not descend.  A non-git directory also has `.git`
pruned, and when non-recursive its `dirnames` is cleared unless it is the
root (`os.path.abspath(dirpath) != os.path.abspath(root)`). -/
def walk_dir (recursive : Bool) (isRoot : Bool) (path : List String) : FsTree → List ScanRecord
  | FsTree.dir _ files env children =>
    if (children.any fun c => c.name == ".git") || files.contains ".git" then
      { path := path
        status := (get_repo_status env).1
        extra := (get_repo_status env).2 } ::
        (if recursive then walk_children recursive path true children else [])
    else
      if recursive || isRoot then walk_children recursive path true children else []

/-- Descend into the surviving `dirnames`, in order.  `skipGit` records
whether the pending `dirnames.remove(".git")` (which removes only the
first occurrence) still has to skip a `.git` entry. -/
def walk_children (recursive : Bool) (parent : List String) (skipGit : Bool) : List FsTree → List ScanRecord
  | [] => []
  | c :: cs =>
    if skipGit && c.name == ".git" then walk_children recursive parent false cs
    else
      walk_dir recursive false (parent ++ [c.name]) c ++ walk_children recursive parent skipGit cs
end

/-- The three aggregation structures returned by `scan_repos`
(lines 162-204): the category lists, and the two side tables. -/
structure ScanResult where
  /-- Embeds `repo_statuses`: for each category key, the repositories recorded
  under it, in walk order (`defaultdict(list)` read through `.get(key, [])`,
  so a key never appended to reads as the empty list). -/
  repo_statuses : Status → List (List String)
  /-- Embeds `diverged_info`: path with its `(ahead, behind)` pair. -/
  diverged_info : List (List String × (Int × Int))
  /-- Embeds `unpushed_info`: path with its author set. -/
  unpushed_info : List (List String × List String)

/-- Embeds `scan_repos` (lines 162-204): walk the root and aggregate the records.
The `isinstance` guards of the source correspond to the `Extra`
constructor matches. -/
def scan_repos (root : FsTree) (recursive : Bool) : ScanResult :=
  let records := walk_dir recursive true [] root
  { repo_statuses := fun st => (records.filter (fun r => r.status == st)).map (fun r => r.path)
    diverged_info := records.filterMap (fun r =>
      match r.status, r.extra with
      | Status.diverged, Extra.div a b => some (r.path, (a, b))
      | _, _ => none)
    unpushed_info := records.filterMap (fun r =>
      match r.status, r.extra with
      | Status.unpushed_ahead, Extra.authors l => some (r.path, l)
      | _, _ => none) }

mutual
/-- Well-formedness of a directory tree as a real filesystem: sibling
names are distinct, recursively. -/
def wf_tree : FsTree → Bool
  | FsTree.dir _ _ _ children =>
    decide ((children.map FsTree.name).Nodup) && wf_forest children

/-- All trees of the forest are well-formed. -/
def wf_forest : List FsTree → Bool
  | [] => true
  | c :: cs => wf_tree c && wf_forest cs
end

/- ### Reporter -/

/-- Embeds `colorama.Fore.RED`. -/
def RED : String := "\x1b[31m"

/-- Embeds `colorama.Fore.YELLOW`. -/
def YEL : String := "\x1b[33m"

/-- Embeds `colorama.Fore.GREEN`. -/
def GRN : String := "\x1b[32m"

/-- Embeds `colorama.Fore.BLUE`. -/
def BLU : String := "\x1b[34m"

/-- Embeds `colorama.Style.RESET_ALL`. -/
def RST : String := "\x1b[0m"

/-- Color of each category (`CATEGORIES`, lines 37-47). -/
def category_color : Status → String
  | Status.bare => BLU
  | Status.detached_head => YEL
  | Status.uncommitted => RED
  | Status.untracked => YEL
  | Status.no_upstream => BLU
  | Status.diverged => RED
  | Status.unpushed_ahead => YEL
  | Status.behind => YEL
  | Status.clean => GRN

/-- Label of each category (`CATEGORIES`, lines 37-47). -/
def category_label : Status → String
  | Status.bare => "Bare Git Repositories"
  | Status.detached_head => "Repos in Detached HEAD State"
  | Status.uncommitted => "Repos with Uncommitted Changes"
  | Status.untracked => "Repos with Untracked Files"
  | Status.no_upstream => "Repos with No Upstream Set"
  | Status.diverged => "Repos Diverged from Upstream"
  | Status.unpushed_ahead => "Repos with Unpushed Commits (Ahead)"
  | Status.behind => "Repos Behind Upstream"
  | Status.clean => "Repos Up-to-Date and Tracking Remote"

/-- Iteration order of `CATEGORIES.items()` (dict insertion order). -/
def categories_order : List Status :=
  [Status.bare, Status.detached_head, Status.uncommitted, Status.untracked,
   Status.no_upstream, Status.diverged, Status.unpushed_ahead, Status.behind,
   Status.clean]

/-- Python string `<=`, by code point, on the underlying characters. -/
def str_le_chars : List Char → List Char → Bool
  | [], _ => true
  | _ :: _, [] => false
  | a :: as, b :: bs => if a < b then true else if a = b then str_le_chars as bs else false

/-- Insert into an already sorted list (helper for `py_sorted`). -/
def insert_le (x : String) : List String → List String
  | [] => [x]
  | y :: ys => if str_le_chars x.data y.data then x :: y :: ys else y :: insert_le x ys

/-- Python `sorted` on strings: ascending lexicographic order. -/
def py_sorted : List String → List String
  | [] => []
  | x :: xs => insert_le x (py_sorted xs)

/-- Embeds `diverged_info.get(repo, (0, 0))` (reporter side, where repository
identity is the printed path string). -/
def dict_get_pair (d : List (String × (Int × Int))) (k : String) : Int × Int :=
  match d.find? (fun kv => kv.1 == k) with
  | some kv => kv.2
  | none => (0, 0)

/-- Embeds `unpushed_info.get(repo, set())`. -/
def dict_get_authors (d : List (String × List String)) (k : String) : List String :=
  match d.find? (fun kv => kv.1 == k) with
  | some kv => kv.2
  | none => []

/-- One printed line of the per-category listing (lines 225-234). -/
def repo_line (divI : List (String × (Int × Int))) (upI : List (String × List String))
    (k : Status) (repo : String) : String :=
  if k == Status.diverged then
    let ab := dict_get_pair divI repo
    "  " ++ category_color k ++ repo ++ RST ++ "  " ++ YEL ++ "(ahead: " ++ toString ab.1 ++
      ", behind: " ++ toString ab.2 ++ ")" ++ RST
  else if k == Status.unpushed_ahead then
    let authors := py_sorted (dict_get_authors upI repo)
    let who := if authors.isEmpty then "Unknown author(s)" else ", ".intercalate authors
    "  " ++ category_color k ++ repo ++ RST ++ "  " ++ YEL ++ "(Authors: " ++ who ++ ")" ++ RST
  else
    "  " ++ category_color k ++ repo ++ RST

/-- One iteration of the listing loop of `print_results` (lines 217-237):
the accumulator carries the lines printed so far and the `problems`
mapping (association list; categories are visited once each, so keys stay
distinct). -/
def listing_step (f : Status → List String) (divI : List (String × (Int × Int)))
    (upI : List (String × List String)) (skip_clean : Bool)
    (acc : List String × List (Status × List String)) (k : Status) :
    List String × List (Status × List String) :=
  let repos := f k
  if repos.isEmpty then acc
  else if k == Status.clean && skip_clean then acc
  else
    let lines := (category_color k ++ category_label k ++ RST) ::
      (py_sorted repos).map (repo_line divI upI k)
    let problems := if k == Status.clean then acc.2 else acc.2 ++ [(k, repos)]
    (acc.1 ++ lines, problems)

/-- Embeds `print_results` (lines 207-258), modelled as the list of printed
lines: the per-category listing followed by the summary block. -/
def print_results (f : Status → List String) (divI : List (String × (Int × Int)))
    (upI : List (String × List String)) (skip_clean : Bool) : List String :=
  let clean := f Status.clean
  let listing := categories_order.foldl (listing_step f divI upI skip_clean) ([], [])
  let div_count := (f Status.diverged).length
  let up_count := (f Status.unpushed_ahead).length
  let other_problem_count :=
    ((listing.2.filter (fun kv => !(kv.1 == Status.diverged || kv.1 == Status.unpushed_ahead))).map
      (fun kv => kv.2.length)).sum
  listing.1 ++ [""] ++ [BLU ++ "Summary" ++ RST] ++
    (if div_count ≠ 0 then ["  " ++ RED ++ "Diverged: " ++ toString div_count ++ RST] else []) ++
    (if up_count ≠ 0 then ["  " ++ YEL ++ "Unpushed (ahead): " ++ toString up_count ++ RST] else []) ++
    (if other_problem_count ≠ 0 then
      ["  " ++ RED ++ "Other problems: " ++ toString other_problem_count ++ RST] else []) ++
    (if div_count = 0 ∧ up_count = 0 ∧ other_problem_count = 0 then
      ["  " ++ GRN ++ "No problem repos detected." ++ RST] else []) ++
    (if !skip_clean && !clean.isEmpty then
      ["  " ++ GRN ++ "Clean: " ++ toString clean.length ++ RST] else [])

/- ### Concrete environments and trees used to instantiate the theorems -/

/-- A successful git call with the given stdout, empty stderr, exit 0. -/
def res_ok (s : String) : SubprocessResult := SubprocessResult.ok s "" 0

/-- Environment of a clean repository on branch `main`, tracking
`origin/main`, in sync. -/
def env_clean : RepoEnv :=
  { bare_res := res_ok "false"
    branch_res := res_ok "main"
    status_res := res_ok ""
    upstream_res := res_ok "origin/main"
    ahead_res := res_ok "0"
    behind_res := res_ok "0"
    log_res := res_ok "" }

/-- Bare repository (the bare query answers `true`; the other queries
would answer as in a dirty repo, which must not matter). -/
def env_bare : RepoEnv :=
  { env_clean with bare_res := res_ok "true", status_res := res_ok " M a.txt" }

/-- Detached HEAD with uncommitted changes: the branch query answers the
sentinel `HEAD` and the status query reports a tracked modification. -/
def env_detached_dirty : RepoEnv :=
  { env_clean with branch_res := res_ok "HEAD", status_res := res_ok " M a.txt" }

/-- Tracked modification plus an untracked file. -/
def env_dirty_untracked : RepoEnv :=
  { env_clean with status_res := res_ok " M a.txt\n?? new.txt" }

/-- Untracked file only. -/
def env_untracked : RepoEnv :=
  { env_clean with status_res := res_ok "?? new.txt" }

/-- No upstream configured: the upstream query fails. -/
def env_no_up : RepoEnv :=
  { env_clean with
      upstream_res := SubprocessResult.ok "" "fatal: no upstream configured for branch" 128 }

/-- Diverged: 2 ahead, 3 behind. -/
def env_diverged : RepoEnv :=
  { env_clean with ahead_res := res_ok "2", behind_res := res_ok "3" }

/-- Ahead only, with a duplicated author and a blank line in the log. -/
def env_ahead : RepoEnv :=
  { env_clean with
      ahead_res := res_ok "2"
      log_res := res_ok "Alice <a@x>\n\n  Alice <a@x>\nBob <b@y>" }

/-- Behind only. -/
def env_behind : RepoEnv :=
  { env_clean with behind_res := res_ok "4" }

/-- The ahead count parses as `3` but the behind count output is not an
integer. -/
def env_parse_mix : RepoEnv :=
  { env_clean with ahead_res := res_ok "3", behind_res := res_ok "xyz" }

/-- Root that is itself a repository (marker file) with one nested
repository: exercises descent past a detected repository. -/
def nested_tree : FsTree :=
  FsTree.dir "root" [".git"] env_bare [FsTree.dir "sub" [".git"] env_bare []]

/-- Root (not a repository) with one repository one level down and one
repository nested two levels deep behind a non-repository directory. -/
def two_level_tree : FsTree :=
  FsTree.dir "root" [] env_clean
    [FsTree.dir "top" [".git"] env_clean [],
     FsTree.dir "mid" [] env_clean [FsTree.dir "deep" [".git"] env_clean []]]

/-- Root that is itself a repository, with a `.git` subdirectory and a
further subdirectory. -/
def root_repo_tree : FsTree :=
  FsTree.dir "root" [] env_clean
    [FsTree.dir ".git" [] env_clean [], FsTree.dir "sub" [] env_clean []]

/- ### Classifier lemmas -/

/-- C1: Classification follows a strict priority chain: a bare repository
is `bare` irrespective of anything else; a non-bare repository whose
branch query returns the sentinel `HEAD` is `detached_head` even when
dirty; a repository with a status line not prefixed by the untracked
marker is `uncommitted` even when untracked files are also present; only
then do `untracked`, `no_upstream`, `diverged`, `unpushed_ahead`,
`behind`, `clean` apply, in that order. -/
theorem get_repo_status_priority_chain (e : RepoEnv) (u : String) :
    (is_bare_repo e = true → (get_repo_status e).1 = Status.bare) ∧
    (is_bare_repo e = false → current_branch_or_head e = "HEAD" →
      (get_repo_status e).1 = Status.detached_head) ∧
    (is_bare_repo e = false → current_branch_or_head e ≠ "HEAD" →
      has_uncommitted e = true → (get_repo_status e).1 = Status.uncommitted) ∧
    (is_bare_repo e = false → current_branch_or_head e ≠ "HEAD" →
      has_uncommitted e = false → has_untracked e = true →
      (get_repo_status e).1 = Status.untracked) ∧
    (is_bare_repo e = false → current_branch_or_head e ≠ "HEAD" →
      has_uncommitted e = false → has_untracked e = false →
      (upstream_ref e (current_branch_or_head e) = Option.none ∨
        upstream_ref e (current_branch_or_head e) = Option.some "") →
      (get_repo_status e).1 = Status.no_upstream) ∧
    (is_bare_repo e = false → current_branch_or_head e ≠ "HEAD" →
      has_uncommitted e = false → has_untracked e = false →
      upstream_ref e (current_branch_or_head e) = Option.some u → u ≠ "" →
      (ahead_behind e u).1 > 0 → (ahead_behind e u).2 > 0 →
      (get_repo_status e).1 = Status.diverged) ∧
    (is_bare_repo e = false → current_branch_or_head e ≠ "HEAD" →
      has_uncommitted e = false → has_untracked e = false →
      upstream_ref e (current_branch_or_head e) = Option.some u → u ≠ "" →
      (ahead_behind e u).1 > 0 → ¬((ahead_behind e u).2 > 0) →
      (get_repo_status e).1 = Status.unpushed_ahead) ∧
    (is_bare_repo e = false → current_branch_or_head e ≠ "HEAD" →
      has_uncommitted e = false → has_untracked e = false →
      upstream_ref e (current_branch_or_head e) = Option.some u → u ≠ "" →
      ¬((ahead_behind e u).1 > 0) → (ahead_behind e u).2 > 0 →
      (get_repo_status e).1 = Status.behind) ∧
    (is_bare_repo e = false → current_branch_or_head e ≠ "HEAD" →
      has_uncommitted e = false → has_untracked e = false →
      upstream_ref e (current_branch_or_head e) = Option.some u → u ≠ "" →
      ¬((ahead_behind e u).1 > 0) → ¬((ahead_behind e u).2 > 0) →
      (get_repo_status e).1 = Status.clean) := by
  refine ⟨?_, ?_, ?_, ?_, ?_, ?_, ?_, ?_, ?_⟩
  · intro h1
    simp [get_repo_status, h1]
  · intro h1 h2
    simp [get_repo_status, h1, h2]
  · intro h1 h2 h3
    simp [get_repo_status, h1, h2, h3]
  · intro h1 h2 h3 h4
    simp [get_repo_status, h1, h2, h3, h4]
  · intro h1 h2 h3 h4 h5
    rcases h5 with h5 | h5 <;> simp [get_repo_status, h1, h2, h3, h4, h5]
  · intro h1 h2 h3 h4 h5 h6 h7 h8
    simp [get_repo_status, h1, h2, h3, h4, h5, h6, h7, h8]
  · intro h1 h2 h3 h4 h5 h6 h7 h8
    simp [get_repo_status, h1, h2, h3, h4, h5, h6, h7, h8]
  · intro h1 h2 h3 h4 h5 h6 h7 h8
    simp [get_repo_status, h1, h2, h3, h4, h5, h6, h7, h8]
  · intro h1 h2 h3 h4 h5 h6 h7 h8
    simp [get_repo_status, h1, h2, h3, h4, h5, h6, h7, h8]

/-- Witness for C1: a detached-HEAD repository with uncommitted changes
classifies as `detached_head`, and a repository with both a tracked
modification and an untracked file classifies as `uncommitted`. -/
theorem get_repo_status_priority_chain_witness :
    (is_bare_repo env_detached_dirty = false ∧
      current_branch_or_head env_detached_dirty = "HEAD" ∧
      has_uncommitted env_detached_dirty = true ∧
      (get_repo_status env_detached_dirty).1 = Status.detached_head) ∧
    (has_uncommitted env_dirty_untracked = true ∧
      has_untracked env_dirty_untracked = true ∧
      (get_repo_status env_dirty_untracked).1 = Status.uncommitted) :=
  ⟨⟨by decide, by decide, by decide,
    (get_repo_status_priority_chain env_detached_dirty "").2.1 (by decide) (by decide)⟩,
   ⟨by decide, by decide,
    (get_repo_status_priority_chain env_dirty_untracked "").2.2.1 (by decide) (by decide)
      (by decide)⟩⟩

/-- If classification reports `diverged`, the attached pair is the
`ahead_behind` pair and both components are positive (that branch is
guarded by `ahead > 0 and behind > 0`). -/
theorem get_repo_status_div_pos (e : RepoEnv) (a b : Int)
    (h : (get_repo_status e).2 = Extra.div a b) : 0 < a ∧ 0 < b := by
  by_cases hb : is_bare_repo e
  · simp [get_repo_status, hb] at h
  · by_cases hH : current_branch_or_head e = "HEAD"
    · simp [get_repo_status, hb, hH] at h
    · by_cases hu : has_uncommitted e
      · simp [get_repo_status, hb, hH, hu] at h
      · by_cases ht : has_untracked e
        · simp [get_repo_status, hb, hH, hu, ht] at h
        · cases hup : upstream_ref e (current_branch_or_head e) with
          | none => simp [get_repo_status, hb, hH, hu, ht, hup] at h
          | some up =>
            by_cases he : up = ""
            · simp [get_repo_status, hb, hH, hu, ht, hup, he] at h
            · by_cases hab : (ahead_behind e up).1 > 0 ∧ (ahead_behind e up).2 > 0
              · simp [get_repo_status, hb, hH, hu, ht, hup, he, hab] at h
                exact ⟨h.1 ▸ hab.1, h.2 ▸ hab.2⟩
              · by_cases ha : (ahead_behind e up).1 > 0
                · have h2 : ¬((ahead_behind e up).2 > 0) := fun hx => hab ⟨ha, hx⟩
                  simp [get_repo_status, hb, hH, hu, ht, hup, he, hab, ha, h2] at h
                · by_cases h2 : (ahead_behind e up).2 > 0 <;>
                    simp [get_repo_status, hb, hH, hu, ht, hup, he, hab, ha, h2] at h

mutual
/-- Every record produced by the walk carries a status/extra pair that is
the result of `get_repo_status` on some environment. -/
theorem walk_dir_status_from_env (recursive isRoot : Bool) (p : List String) (t : FsTree) :
    ∀ r ∈ walk_dir recursive isRoot p t, ∃ e : RepoEnv,
      r.status = (get_repo_status e).1 ∧ r.extra = (get_repo_status e).2 := by
  cases t with
  | dir n files env children =>
    intro r hr
    unfold walk_dir at hr
    by_cases hgit : ((children.any fun c => c.name == ".git") || files.contains ".git") = true
    · rw [if_pos hgit] at hr
      rcases List.mem_cons.mp hr with h | h
      · exact ⟨env, by rw [h], by rw [h]⟩
      · by_cases hrec : recursive = true
        · rw [if_pos hrec] at h
          exact walk_children_status_from_env recursive p true children r h
        · rw [if_neg hrec] at h
          exact absurd h (List.not_mem_nil r)
    · rw [if_neg hgit] at hr
      by_cases hdesc : (recursive || isRoot) = true
      · rw [if_pos hdesc] at hr
        exact walk_children_status_from_env recursive p true children r hr
      · rw [if_neg hdesc] at hr
        exact absurd hr (List.not_mem_nil r)

/-- Forest version of `walk_dir_status_from_env`. -/
theorem walk_children_status_from_env (recursive : Bool) (parent : List String) (skipGit : Bool)
    (cs : List FsTree) :
    ∀ r ∈ walk_children recursive parent skipGit cs, ∃ e : RepoEnv,
      r.status = (get_repo_status e).1 ∧ r.extra = (get_repo_status e).2 := by
  cases cs with
  | nil => intro r hr; simp [walk_children] at hr
  | cons c rest =>
    intro r hr
    unfold walk_children at hr
    by_cases hskip : (skipGit && c.name == ".git") = true
    · rw [if_pos hskip] at hr
      exact walk_children_status_from_env recursive parent false rest r hr
    · rw [if_neg hskip] at hr
      rcases List.mem_append.mp hr with h | h
      · exact walk_dir_status_from_env recursive false (parent ++ [c.name]) c r h
      · exact walk_children_status_from_env recursive parent skipGit rest r h
end

/-- C5: once classification reaches the count step, the status is
`diverged` iff both counts are positive, in which case the extra data is
exactly that pair (hence any `DivergedInfo` pair in a scan has both
components strictly positive), and `unpushed_ahead` implies ahead > 0 and
behind = 0 (given that the behind count query returned a count, i.e. a
non-negative value). -/
theorem diverged_unpushed_counts (e : RepoEnv) (u : String)
    (h1 : is_bare_repo e = false) (h2 : current_branch_or_head e ≠ "HEAD")
    (h3 : has_uncommitted e = false) (h4 : has_untracked e = false)
    (h5 : upstream_ref e (current_branch_or_head e) = Option.some u) (h6 : u ≠ "")
    (hnn : 0 ≤ (ahead_behind e u).2) :
    ((get_repo_status e).1 = Status.diverged ↔
      (ahead_behind e u).1 > 0 ∧ (ahead_behind e u).2 > 0) ∧
    ((get_repo_status e).1 = Status.diverged →
      (get_repo_status e).2 = Extra.div (ahead_behind e u).1 (ahead_behind e u).2) ∧
    ((get_repo_status e).1 = Status.unpushed_ahead →
      (ahead_behind e u).1 > 0 ∧ (ahead_behind e u).2 = 0) ∧
    (∀ (root : FsTree) (recursive : Bool) (p : List String) (a b : Int),
      (p, (a, b)) ∈ (scan_repos root recursive).diverged_info → 0 < a ∧ 0 < b) := by
  refine ⟨?_, ?_, ?_, ?_⟩
  · constructor
    · intro hst
      by_cases hab : (ahead_behind e u).1 > 0 ∧ (ahead_behind e u).2 > 0
      · exact hab
      · by_cases ha : (ahead_behind e u).1 > 0
        · have hx : ¬((ahead_behind e u).2 > 0) := fun hy => hab ⟨ha, hy⟩
          simp [get_repo_status, h1, h2, h3, h4, h5, h6, hab, ha, hx] at hst
        · by_cases hb2 : (ahead_behind e u).2 > 0 <;>
            simp [get_repo_status, h1, h2, h3, h4, h5, h6, hab, ha, hb2] at hst
    · intro hab
      simp [get_repo_status, h1, h2, h3, h4, h5, h6, hab]
  · intro hst
    by_cases hab : (ahead_behind e u).1 > 0 ∧ (ahead_behind e u).2 > 0
    · simp [get_repo_status, h1, h2, h3, h4, h5, h6, hab]
    · by_cases ha : (ahead_behind e u).1 > 0
      · have hx : ¬((ahead_behind e u).2 > 0) := fun hy => hab ⟨ha, hy⟩
        simp [get_repo_status, h1, h2, h3, h4, h5, h6, hab, ha, hx] at hst
      · by_cases hb2 : (ahead_behind e u).2 > 0 <;>
          simp [get_repo_status, h1, h2, h3, h4, h5, h6, hab, ha, hb2] at hst
  · intro hst
    by_cases hab : (ahead_behind e u).1 > 0 ∧ (ahead_behind e u).2 > 0
    · simp [get_repo_status, h1, h2, h3, h4, h5, h6, hab] at hst
    · by_cases ha : (ahead_behind e u).1 > 0
      · have hx : ¬((ahead_behind e u).2 > 0) := fun hy => hab ⟨ha, hy⟩
        exact ⟨ha, le_antisymm (not_lt.mp hx) hnn⟩
      · by_cases hb2 : (ahead_behind e u).2 > 0 <;>
          simp [get_repo_status, h1, h2, h3, h4, h5, h6, hab, ha, hb2] at hst
  · intro root recursive p a b hmem
    have : ∃ r ∈ walk_dir recursive true [] root,
        (match r.status, r.extra with
          | Status.diverged, Extra.div a' b' => some (r.path, (a', b'))
          | _, _ => none) = some (p, (a, b)) := by
      simpa [scan_repos, List.mem_filterMap] using hmem
    obtain ⟨r, hr, heq⟩ := this
    obtain ⟨env, hst, hex⟩ := walk_dir_status_from_env recursive true [] root r hr
    cases hS : r.status <;> cases hE : r.extra <;> rw [hS, hE] at heq <;> simp at heq
    rename_i a' b'
    obtain ⟨hpath, ha', hb'⟩ := heq
    have hpos := get_repo_status_div_pos env a' b' (by rw [← hex, hE])
    exact ⟨ha' ▸ hpos.1, hb' ▸ hpos.2⟩

/-- Head?-form of `List.head_dropWhile_not`. -/
theorem dropWhile_head?_not {α : Type} (p : α → Bool) (l : List α) (c : α)
    (h : (l.dropWhile p).head? = some c) : p c = false := by
  have hx := List.head?_dropWhile_not p l
  rw [h] at hx
  exact hx

/-- The first character of a stripped string is not whitespace. -/
theorem py_strip_list_head_not (l : List Char) (c : Char)
    (h : (py_strip_list l).head? = some c) : py_isspace c = false := by
  unfold py_strip_list at h
  rw [List.head?_reverse] at h
  have hsuf := List.dropWhile_suffix (l := (l.dropWhile py_isspace).reverse) py_isspace
  obtain ⟨t, ht⟩ := hsuf
  have hne : (l.dropWhile py_isspace).reverse.dropWhile py_isspace ≠ [] := by
    intro hz
    rw [hz] at h
    simp at h
  have : ((l.dropWhile py_isspace).reverse).getLast? = some c := by
    rw [← ht, List.getLast?_append_of_ne_nil t hne]
    exact h
  rw [List.getLast?_reverse] at this
  exact dropWhile_head?_not py_isspace l c this

/-- The last character of a stripped string is not whitespace. -/
theorem py_strip_list_getLast_not (l : List Char) (c : Char)
    (h : (py_strip_list l).getLast? = some c) : py_isspace c = false := by
  unfold py_strip_list at h
  rw [List.getLast?_reverse] at h
  exact dropWhile_head?_not py_isspace (l.dropWhile py_isspace).reverse c h

/-- C7: the command runner is total: for a launched process it returns the
captured triple with both output strings stripped of surrounding
whitespace (so neither retains a leading or trailing whitespace
character), and when launching fails it returns `("", <error>, 1)`; no
exception propagates because both branches produce a value. -/
theorem run_git_total :
    (∀ o err rc, run_git (SubprocessResult.ok o err rc) = (py_strip o, py_strip err, rc)) ∧
    (∀ m, run_git (SubprocessResult.exn m) = ("", m, 1)) ∧
    (∀ o err rc c,
      (((run_git (SubprocessResult.ok o err rc)).1.data.head? = some c ∨
        (run_git (SubprocessResult.ok o err rc)).1.data.getLast? = some c) →
        py_isspace c = false) ∧
      (((run_git (SubprocessResult.ok o err rc)).2.1.data.head? = some c ∨
        (run_git (SubprocessResult.ok o err rc)).2.1.data.getLast? = some c) →
        py_isspace c = false)) := by
  refine ⟨fun _ _ _ => rfl, fun _ => rfl, ?_⟩
  intro o err rc c
  constructor
  · intro h
    rcases h with h | h
    · exact py_strip_list_head_not o.data c h
    · exact py_strip_list_getLast_not o.data c h
  · intro h
    rcases h with h | h
    · exact py_strip_list_head_not err.data c h
    · exact py_strip_list_getLast_not err.data c h

/-- Witness for C7 at concrete inputs: a padded stdout/stderr pair is
trimmed, a launch failure yields the `("", msg, 1)` triple, and the head
of the trimmed stdout is not whitespace. -/
theorem run_git_total_witness :
    run_git (SubprocessResult.ok " x \n" "\te " 7) = ("x", "e", 7) ∧
    run_git (SubprocessResult.exn "No such file or directory") =
      ("", "No such file or directory", 1) ∧
    py_isspace 'x' = false :=
  ⟨(run_git_total.1 " x \n" "\te " 7).trans (by decide),
   run_git_total.2.1 "No such file or directory",
   (run_git_total.2.2 " x \n" "\te " 7 'x').1 (Or.inl (by decide))⟩

/-- Witness for C5: a repository 2 ahead and 3 behind classifies as
`diverged` with extra data `(2, 3)`. -/
theorem diverged_unpushed_counts_witness :
    (get_repo_status env_diverged).1 = Status.diverged ∧
    (get_repo_status env_diverged).2 = Extra.div 2 3 := by
  have h := diverged_unpushed_counts env_diverged "origin/main" (by decide) (by decide)
    (by decide) (by decide) (by decide) (by decide) (by decide)
  refine ⟨h.1.mpr (by decide), (h.2.1 (h.1.mpr (by decide))).trans (by decide)⟩

/-- If classification reports `unpushed_ahead`, the extra data is the
author set computed by `unpushed_authors` (which ignores its upstream
argument, as that argument only shapes the command string). -/
theorem get_repo_status_unpushed_extra (e : RepoEnv) (u : String)
    (h : (get_repo_status e).1 = Status.unpushed_ahead) :
    (get_repo_status e).2 = Extra.authors (unpushed_authors e u) := by
  by_cases hb : is_bare_repo e
  · simp [get_repo_status, hb] at h
  · by_cases hH : current_branch_or_head e = "HEAD"
    · simp [get_repo_status, hb, hH] at h
    · by_cases hu : has_uncommitted e
      · simp [get_repo_status, hb, hH, hu] at h
      · by_cases ht : has_untracked e
        · simp [get_repo_status, hb, hH, hu, ht] at h
        · cases hup : upstream_ref e (current_branch_or_head e) with
          | none => simp [get_repo_status, hb, hH, hu, ht, hup] at h
          | some up =>
            by_cases he : up = ""
            · simp [get_repo_status, hb, hH, hu, ht, hup, he] at h
            · by_cases hab : (ahead_behind e up).1 > 0 ∧ (ahead_behind e up).2 > 0
              · simp [get_repo_status, hb, hH, hu, ht, hup, he, hab] at h
              · by_cases ha : (ahead_behind e up).1 > 0
                · have hx : ¬((ahead_behind e up).2 > 0) := fun hy => hab ⟨ha, hy⟩
                  simp [get_repo_status, hb, hH, hu, ht, hup, he, hab, ha, hx]
                  rfl
                · by_cases h2 : (ahead_behind e up).2 > 0 <;>
                    simp [get_repo_status, hb, hH, hu, ht, hup, he, hab, ha, h2] at h

/-- C6: for a repository classified `unpushed_ahead` the extra data is
exactly the distinct set of author strings obtained from the lines of the
commit-log query, each line stripped and blank lines dropped (and so the
set is empty precisely when the log output has no non-blank line). -/
theorem unpushed_authors_exact (e : RepoEnv)
    (h : (get_repo_status e).1 = Status.unpushed_ahead) :
    (∀ u : String, (get_repo_status e).2 = Extra.authors (unpushed_authors e u)) ∧
    (∀ u : String, (unpushed_authors e u).Nodup) ∧
    (∀ u s : String, s ∈ unpushed_authors e u ↔
      ((∃ l ∈ py_splitlines (run_git e.log_res).1, py_strip l = s) ∧ ¬(s = ""))) := by
  refine ⟨fun u => get_repo_status_unpushed_extra e u h, fun u => List.nodup_dedup _, ?_⟩
  intro u s
  constructor
  · intro hs
    rw [unpushed_authors, List.mem_dedup, List.mem_filter] at hs
    obtain ⟨hmem, hne⟩ := hs
    obtain ⟨l, hl, hls⟩ := List.mem_map.mp hmem
    exact ⟨⟨l, hl, hls⟩, by simpa using hne⟩
  · intro hs
    obtain ⟨⟨l, hl, hls⟩, hne⟩ := hs
    rw [unpushed_authors, List.mem_dedup, List.mem_filter]
    exact ⟨List.mem_map.mpr ⟨l, hl, hls⟩, by simpa using hne⟩

/-- Witness for C6: a log with a duplicated author (one occurrence padded
with spaces) and a blank line yields exactly the two distinct authors. -/
theorem unpushed_authors_exact_witness :
    (get_repo_status env_ahead).1 = Status.unpushed_ahead ∧
    (get_repo_status env_ahead).2 =
      Extra.authors (unpushed_authors env_ahead "origin/main") ∧
    ("Alice <a@x>" ∈ unpushed_authors env_ahead "origin/main" ∧
      "Bob <b@y>" ∈ unpushed_authors env_ahead "origin/main" ∧
      (unpushed_authors env_ahead "origin/main").Nodup) := by
  have h := unpushed_authors_exact env_ahead (by decide)
  refine ⟨by decide, h.1 "origin/main", ?_, ?_, h.2.1 "origin/main"⟩
  · exact (h.2.2 "origin/main" "Alice <a@x>").mpr (by decide)
  · exact (h.2.2 "origin/main" "Bob <b@y>").mpr (by decide)

/-- C8 counterexample: the ahead output parses as the integer 3 while the
behind output does not parse, yet the resulting pair is `(0, 0)`, not
`(3, 0)` — both counts are wrapped in one `try`, so a parse failure in
either resets both. -/
theorem ahead_behind_mixed_parse_counterexample :
    py_int_or_zero (run_git env_parse_mix.ahead_res).1 = some 3 ∧
    py_int_or_zero (run_git env_parse_mix.behind_res).1 = none ∧
    ahead_behind env_parse_mix "origin/main" = (0, 0) ∧
    ¬(ahead_behind env_parse_mix "origin/main" = (3, 0)) := by
  refine ⟨by decide, by decide, by decide, by decide⟩

/-- C8 amended: when both count outputs convert (an empty output counts
as 0), the pair is their two integer values; when either conversion
fails, both counts default to 0. -/
theorem ahead_behind_parse_defaults (e : RepoEnv) (u : String) :
    (∀ a b : Int, py_int_or_zero (run_git e.ahead_res).1 = some a →
      py_int_or_zero (run_git e.behind_res).1 = some b → ahead_behind e u = (a, b)) ∧
    ((py_int_or_zero (run_git e.ahead_res).1 = none ∨
      py_int_or_zero (run_git e.behind_res).1 = none) → ahead_behind e u = (0, 0)) := by
  constructor
  · intro a b ha hb
    simp [ahead_behind, ha, hb]
  · intro h
    rcases h with h | h
    · simp [ahead_behind, h]
    · cases hA : py_int_or_zero (run_git e.ahead_res).1 <;> simp [ahead_behind, h, hA]

/-- Witness for C8 amended: both outputs of the diverged environment
parse, giving `(2, 3)`; the mixed-parse environment resets to `(0, 0)`. -/
theorem ahead_behind_parse_defaults_witness :
    ahead_behind env_diverged "origin/main" = (2, 3) ∧
    ahead_behind env_parse_mix "origin/main" = (0, 0) :=
  ⟨(ahead_behind_parse_defaults env_diverged "origin/main").1 2 3 (by decide) (by decide),
   (ahead_behind_parse_defaults env_parse_mix "origin/main").2 (Or.inr (by decide))⟩

/-- A marker-carrying directory visited by a non-recursive walk yields
exactly its own record: `dirnames[:] = []` clears the queue. -/
theorem walk_dir_git_nonrec (isRoot : Bool) (p : List String) (t : FsTree)
    (h : is_git_dir t = true) :
    walk_dir false isRoot p t =
      [{ path := p, status := (get_repo_status t.env).1, extra := (get_repo_status t.env).2 }] := by
  cases t with
  | dir n files env children =>
    have h' : ((children.any fun c => c.name == ".git") || files.contains ".git") = true := by
      simpa [is_git_dir, FsTree.children, FsTree.files] using h
    unfold walk_dir
    rw [if_pos h']
    simp [FsTree.env]

/-- A directory without the marker, visited non-recursively below the
root, yields nothing: its `dirnames` is cleared before descending. -/
theorem walk_dir_nongit_nonrec (p : List String) (t : FsTree)
    (h : is_git_dir t = false) :
    walk_dir false false p t = [] := by
  cases t with
  | dir n files env children =>
    have h' : ((children.any fun c => c.name == ".git") || files.contains ".git") = false := by
      simpa [is_git_dir, FsTree.children, FsTree.files] using h
    have h2 : (∀ x ∈ children, ¬x.name = ".git") ∧ ".git" ∉ files := by simpa using h'
    unfold walk_dir
    simp [h2.1, h2.2]
    exact h2.1

mutual
/-- Every record of the walk lies at or below the visited directory. -/
theorem walk_dir_path_pre (recursive isRoot : Bool) (p : List String) (t : FsTree) :
    ∀ r ∈ walk_dir recursive isRoot p t, p <+: r.path := by
  cases t with
  | dir n files env children =>
    intro r hr
    unfold walk_dir at hr
    by_cases hgit : ((children.any fun c => c.name == ".git") || files.contains ".git") = true
    · rw [if_pos hgit] at hr
      rcases List.mem_cons.mp hr with h | h
      · rw [h]
      · by_cases hrec : recursive = true
        · rw [if_pos hrec] at h
          obtain ⟨c, _, hpre⟩ := walk_children_path_pre recursive p true children r h
          exact (List.prefix_append p [c.name]).trans hpre
        · rw [if_neg hrec] at h
          exact absurd h (List.not_mem_nil r)
    · rw [if_neg hgit] at hr
      by_cases hdesc : (recursive || isRoot) = true
      · rw [if_pos hdesc] at hr
        obtain ⟨c, _, hpre⟩ := walk_children_path_pre recursive p true children r hr
        exact (List.prefix_append p [c.name]).trans hpre
      · rw [if_neg hdesc] at hr
        exact absurd hr (List.not_mem_nil r)

/-- Every record obtained by descending comes from some child and lies at
or below the path of that child. -/
theorem walk_children_path_pre (recursive : Bool) (p : List String) (skipGit : Bool)
    (cs : List FsTree) :
    ∀ r ∈ walk_children recursive p skipGit cs,
      ∃ c ∈ cs, (p ++ [FsTree.name c]) <+: r.path := by
  cases cs with
  | nil => intro r hr; simp [walk_children] at hr
  | cons c rest =>
    intro r hr
    unfold walk_children at hr
    by_cases hskip : (skipGit && c.name == ".git") = true
    · rw [if_pos hskip] at hr
      obtain ⟨c', hc', hpre⟩ := walk_children_path_pre recursive p false rest r hr
      exact ⟨c', List.mem_cons_of_mem c hc', hpre⟩
    · rw [if_neg hskip] at hr
      rcases List.mem_append.mp hr with h | h
      · exact ⟨c, List.mem_cons_self c rest,
          walk_dir_path_pre recursive false (p ++ [c.name]) c r h⟩
      · obtain ⟨c', hc', hpre⟩ := walk_children_path_pre recursive p skipGit rest r h
        exact ⟨c', List.mem_cons_of_mem c hc', hpre⟩
end

/-- Records obtained by descending lie strictly below the parent. -/
theorem walk_children_path_long (recursive : Bool) (p : List String) (skipGit : Bool)
    (cs : List FsTree) :
    ∀ r ∈ walk_children recursive p skipGit cs, p.length < r.path.length := by
  intro r hr
  obtain ⟨c, _, hpre⟩ := walk_children_path_pre recursive p skipGit cs r hr
  have := hpre.length_le
  simpa using this

mutual
/-- On a well-formed tree (distinct sibling names, as on a real
filesystem) the walk records pairwise distinct paths. -/
theorem walk_dir_paths_nodup (recursive isRoot : Bool) (p : List String) (t : FsTree)
    (hwf : wf_tree t = true) :
    ((walk_dir recursive isRoot p t).map ScanRecord.path).Nodup := by
  cases t with
  | dir n files env children =>
    have hwf' : (children.map FsTree.name).Nodup ∧ wf_forest children = true := by
      simpa [wf_tree] using hwf
    have hnames : (children.map FsTree.name).Nodup := hwf'.1
    unfold walk_dir
    by_cases hgit : ((children.any fun c => c.name == ".git") || files.contains ".git") = true
    · rw [if_pos hgit, List.map_cons]
      refine List.nodup_cons.mpr ⟨?_, ?_⟩
      · intro hmem
        by_cases hrec : recursive = true
        · rw [if_pos hrec] at hmem
          obtain ⟨r, hr, hpath⟩ := List.mem_map.mp hmem
          have hlong := walk_children_path_long recursive p true children r hr
          rw [hpath] at hlong
          exact lt_irrefl _ hlong
        · rw [if_neg hrec] at hmem
          simp at hmem
      · by_cases hrec : recursive = true
        · rw [if_pos hrec]
          exact walk_children_paths_nodup recursive p true children hwf'.2 hnames
        · rw [if_neg hrec]
          simp
    · rw [if_neg hgit]
      by_cases hdesc : (recursive || isRoot) = true
      · rw [if_pos hdesc]
        exact walk_children_paths_nodup recursive p true children hwf'.2 hnames
      · rw [if_neg hdesc]
        simp

/-- Forest version of `walk_dir_paths_nodup`. -/
theorem walk_children_paths_nodup (recursive : Bool) (p : List String) (skipGit : Bool)
    (cs : List FsTree) (hwf : wf_forest cs = true) (hn : (cs.map FsTree.name).Nodup) :
    ((walk_children recursive p skipGit cs).map ScanRecord.path).Nodup := by
  cases cs with
  | nil => simp [walk_children]
  | cons c rest =>
    have hwf' : wf_tree c = true ∧ wf_forest rest = true := by
      simpa [wf_forest] using hwf
    have hn' : (∀ x ∈ rest, ¬ FsTree.name x = FsTree.name c) ∧
        (rest.map FsTree.name).Nodup := by simpa using hn
    unfold walk_children
    by_cases hskip : (skipGit && c.name == ".git") = true
    · rw [if_pos hskip]
      exact walk_children_paths_nodup recursive p false rest hwf'.2 hn'.2
    · rw [if_neg hskip, List.map_append]
      refine List.Nodup.append ?_ ?_ ?_
      · exact walk_dir_paths_nodup recursive false (p ++ [c.name]) c hwf'.1
      · exact walk_children_paths_nodup recursive p skipGit rest hwf'.2 hn'.2
      · intro q hq1 hq2
        obtain ⟨r1, hr1, hq1'⟩ := List.mem_map.mp hq1
        obtain ⟨r2, hr2, hq2'⟩ := List.mem_map.mp hq2
        have hpre1 : (p ++ [FsTree.name c]) <+: q :=
          hq1' ▸ walk_dir_path_pre recursive false (p ++ [c.name]) c r1 hr1
        obtain ⟨c', hc', hpre2⟩ := walk_children_path_pre recursive p skipGit rest r2 hr2
        have hpre2' : (p ++ [FsTree.name c']) <+: q := hq2' ▸ hpre2
        have heq : p ++ [FsTree.name c] = p ++ [FsTree.name c'] := by
          rcases List.prefix_or_prefix_of_prefix hpre1 hpre2' with h | h
          · exact h.eq_of_length (by simp)
          · exact (h.eq_of_length (by simp)).symm
        have hname : FsTree.name c = FsTree.name c' := by
          have := List.append_cancel_left heq
          simpa using this
        exact hn'.1 c' hc' hname.symm
end

/-- Membership in a category list of the `ScanResult` is membership of a
walk record with that path and status. -/
theorem mem_repo_statuses (root : FsTree) (recursive : Bool) (c : Status) (p : List String) :
    p ∈ (scan_repos root recursive).repo_statuses c ↔
      ∃ r ∈ walk_dir recursive true [] root, r.path = p ∧ r.status = c := by
  constructor
  · intro hp
    obtain ⟨r, hr, hpath⟩ := List.mem_map.mp hp
    obtain ⟨hmem, hstat⟩ := List.mem_filter.mp hr
    exact ⟨r, hmem, hpath, by simpa using hstat⟩
  · rintro ⟨r, hr, hpath, hstat⟩
    exact List.mem_map.mpr ⟨r, List.mem_filter.mpr ⟨hr, by simp [hstat]⟩, hpath⟩

/-- C2: on a well-formed tree, every discovered repository path belongs to
exactly one of the nine category lists, and the `DivergedInfo` /
`UnpushedInfo` side tables only hold entries for repositories whose
category is `diverged` / `unpushed_ahead` respectively. -/
theorem scan_one_category_and_side_tables (root : FsTree) (recursive : Bool)
    (hwf : wf_tree root = true) :
    (∀ p : List String,
      (∃ c, p ∈ (scan_repos root recursive).repo_statuses c) →
      ∃! c, p ∈ (scan_repos root recursive).repo_statuses c) ∧
    (∀ (p : List String) (ab : Int × Int),
      (p, ab) ∈ (scan_repos root recursive).diverged_info →
      p ∈ (scan_repos root recursive).repo_statuses Status.diverged) ∧
    (∀ (p : List String) (al : List String),
      (p, al) ∈ (scan_repos root recursive).unpushed_info →
      p ∈ (scan_repos root recursive).repo_statuses Status.unpushed_ahead) := by
  refine ⟨?_, ?_, ?_⟩
  · rintro p ⟨c0, hc0⟩
    refine ⟨c0, hc0, ?_⟩
    intro c' hc'
    obtain ⟨r0, hr0, hp0, hs0⟩ := (mem_repo_statuses root recursive c0 p).mp hc0
    obtain ⟨r1, hr1, hp1, hs1⟩ := (mem_repo_statuses root recursive c' p).mp hc'
    have hnd := walk_dir_paths_nodup recursive true [] root hwf
    have hre : r1 = r0 :=
      List.inj_on_of_nodup_map hnd hr1 hr0 (show r1.path = r0.path by rw [hp1, hp0])
    rw [← hs1, hre, hs0]
  · intro p ab hmem
    have hx : ∃ r ∈ walk_dir recursive true [] root,
        (match r.status, r.extra with
          | Status.diverged, Extra.div a' b' => some (r.path, (a', b'))
          | _, _ => none) = some (p, ab) := by
      simpa [scan_repos, List.mem_filterMap] using hmem
    obtain ⟨r, hr, heq⟩ := hx
    cases hS : r.status <;> cases hE : r.extra <;> rw [hS, hE] at heq <;> simp at heq
    exact (mem_repo_statuses root recursive Status.diverged p).mpr ⟨r, hr, heq.1, hS⟩
  · intro p al hmem
    have hx : ∃ r ∈ walk_dir recursive true [] root,
        (match r.status, r.extra with
          | Status.unpushed_ahead, Extra.authors l => some (r.path, l)
          | _, _ => none) = some (p, al) := by
      simpa [scan_repos, List.mem_filterMap] using hmem
    obtain ⟨r, hr, heq⟩ := hx
    cases hS : r.status <;> cases hE : r.extra <;> rw [hS, hE] at heq <;> simp at heq
    exact (mem_repo_statuses root recursive Status.unpushed_ahead p).mpr ⟨r, hr, heq.1, hS⟩

/-- Witness for C2: on the concrete two-repository tree the path of the
top-level repository lies in exactly one category list. -/
theorem scan_one_category_and_side_tables_witness :
    wf_tree two_level_tree = true ∧
    (∃! c, ["top"] ∈ (scan_repos two_level_tree true).repo_statuses c) :=
  ⟨by decide,
   (scan_one_category_and_side_tables two_level_tree true (by decide)).1 ["top"]
     ⟨Status.clean, by decide⟩⟩

/-- C3 counterexample: with recursion enabled the walk does descend into a
detected repository: the root of `nested_tree` carries the marker and is
recorded, and so is the repository nested directly inside it. -/
theorem recursive_scan_records_nested_repo :
    is_git_dir nested_tree = true ∧
    [] ∈ (scan_repos nested_tree true).repo_statuses Status.bare ∧
    ["sub"] ∈ (scan_repos nested_tree true).repo_statuses Status.bare := by
  refine ⟨by decide, by decide, by decide⟩

/-- A marker-carrying directory visited by a recursive walk is recorded
and then descended into, with only the first `.git` entry pruned from the
traversal queue. -/
theorem walk_dir_git_rec (isRoot : Bool) (p : List String) (t : FsTree)
    (h : is_git_dir t = true) :
    walk_dir true isRoot p t =
      { path := p, status := (get_repo_status t.env).1, extra := (get_repo_status t.env).2 } ::
        walk_children true p true t.children := by
  cases t with
  | dir n files env children =>
    have h' : ((children.any fun c => c.name == ".git") || files.contains ".git") = true := by
      simpa [is_git_dir, FsTree.children, FsTree.files] using h
    unfold walk_dir
    rw [if_pos h']
    simp [FsTree.env, FsTree.children]

/-- C3 amended: when recursion is disabled, a visited directory carrying
the marker is classified and recorded and the walk does not descend into
it at all, so nothing nested inside it is recorded; when recursion is
enabled, the walk records it and then does descend into its
subdirectories, pruning only the first `.git` entry from the traversal
queue. -/
theorem no_descent_past_repo (isRoot : Bool) (p : List String) (t : FsTree)
    (h : is_git_dir t = true) :
    walk_dir false isRoot p t =
      [{ path := p, status := (get_repo_status t.env).1, extra := (get_repo_status t.env).2 }] ∧
    walk_dir true isRoot p t =
      { path := p, status := (get_repo_status t.env).1, extra := (get_repo_status t.env).2 } ::
        walk_children true p true t.children :=
  ⟨walk_dir_git_nonrec isRoot p t h, walk_dir_git_rec isRoot p t h⟩

/-- Witness for C3 amended: the non-recursive walk of `nested_tree`
reports exactly the root, not the nested repository. -/
theorem no_descent_past_repo_witness :
    walk_dir false true [] nested_tree = [{ path := [], status := Status.bare, extra := Extra.none }] := by
  have h := (no_descent_past_repo true [] nested_tree (by decide)).1
  exact h.trans (by decide)

/-- In a non-recursive walk, every record obtained by descending from a
directory sits exactly one level below it (a repository there is recorded
but not entered; a non-repository there has its queue cleared). -/
theorem walk_children_nonrec_exact (p : List String) (skipGit : Bool) (cs : List FsTree) :
    ∀ r ∈ walk_children false p skipGit cs, ∃ c ∈ cs, r.path = p ++ [FsTree.name c] := by
  cases cs with
  | nil => intro r hr; simp [walk_children] at hr
  | cons c rest =>
    intro r hr
    unfold walk_children at hr
    by_cases hskip : (skipGit && c.name == ".git") = true
    · rw [if_pos hskip] at hr
      obtain ⟨c', hc', hp⟩ := walk_children_nonrec_exact p false rest r hr
      exact ⟨c', List.mem_cons_of_mem c hc', hp⟩
    · rw [if_neg hskip] at hr
      rcases List.mem_append.mp hr with h | h
      · by_cases hg : is_git_dir c = true
        · rw [walk_dir_git_nonrec false (p ++ [c.name]) c hg] at h
          rcases List.mem_cons.mp h with h | h
          · exact ⟨c, List.mem_cons_self c rest, by rw [h]⟩
          · exact absurd h (List.not_mem_nil r)
        · rw [walk_dir_nongit_nonrec (p ++ [c.name]) c (by simpa using hg)] at h
          exact absurd h (List.not_mem_nil r)
      · obtain ⟨c', hc', hp⟩ := walk_children_nonrec_exact p skipGit rest r h
        exact ⟨c', List.mem_cons_of_mem c hc', hp⟩

/-- C4: a non-recursive scan never records anything deeper than one level
below the root, and on the concrete tree with one repository directly
under the root and one nested two levels deep it records exactly the
top-level one. -/
theorem nonrecursive_scan_depth_one (t : FsTree) :
    (∀ r ∈ walk_dir false true [] t, r.path.length ≤ 1) ∧
    walk_dir false true [] two_level_tree =
      [{ path := ["top"], status := Status.clean, extra := Extra.none }] := by
  constructor
  · intro r hr
    cases t with
    | dir n files env children =>
      unfold walk_dir at hr
      by_cases hgit : ((children.any fun c => c.name == ".git") || files.contains ".git") = true
      · rw [if_pos hgit] at hr
        rcases List.mem_cons.mp hr with h | h
        · rw [h]
          simp
        · simp at h
      · rw [if_neg hgit] at hr
        rw [if_pos (by simp)] at hr
        obtain ⟨c, _, hp⟩ := walk_children_nonrec_exact [] true children r hr
        rw [hp]
        simp
  · decide

/-- Witness for C4: the recorded top-level repository is at depth one. -/
theorem nonrecursive_scan_depth_one_witness :
    ({ path := ["top"], status := Status.clean, extra := Extra.none } : ScanRecord).path.length ≤ 1 :=
  (nonrecursive_scan_depth_one two_level_tree).1
    { path := ["top"], status := Status.clean, extra := Extra.none } (by decide)

/-- C10: a root that itself carries the working-copy marker is classified
and recorded first in both modes, and a non-recursive scan of such a root
reports exactly the root. -/
theorem scan_root_repo_recorded (t : FsTree) (h : is_git_dir t = true) :
    (∀ recursive : Bool, ∃ rest,
      walk_dir recursive true [] t =
        { path := [], status := (get_repo_status t.env).1,
          extra := (get_repo_status t.env).2 } :: rest) ∧
    (∀ c, (scan_repos t false).repo_statuses c =
      if c = (get_repo_status t.env).1 then [([] : List String)] else []) := by
  constructor
  · intro recursive
    cases recursive with
    | false => exact ⟨[], walk_dir_git_nonrec true [] t h⟩
    | true =>
      exact ⟨walk_children true [] true t.children, walk_dir_git_rec true [] t h⟩
  · intro c
    show ((walk_dir false true [] t).filter (fun r => r.status == c)).map (fun r => r.path) = _
    rw [walk_dir_git_nonrec true [] t h]
    by_cases hc : c = (get_repo_status t.env).1
    · rw [if_pos hc]
      simp [hc]
    · rw [if_neg hc]
      simp [Ne.symm hc]

/-- Witness for C10: the repository-root tree is recorded first in
recursive mode, and a non-recursive scan of it reports exactly the root. -/
theorem scan_root_repo_recorded_witness :
    (∃ rest, walk_dir true true [] nested_tree =
      { path := [], status := Status.bare, extra := Extra.none } :: rest) ∧
    (scan_repos nested_tree false).repo_statuses Status.bare = [([] : List String)] := by
  have h := scan_root_repo_recorded nested_tree (by decide)
  constructor
  · obtain ⟨rest, hr⟩ := h.1 true
    have hx : ScanRecord.mk [] (get_repo_status (FsTree.env nested_tree)).1
        (get_repo_status (FsTree.env nested_tree)).2 =
        ScanRecord.mk [] Status.bare Extra.none := by decide
    exact ⟨rest, by rw [hr, hx]⟩
  · exact (h.2 Status.bare).trans (by decide)

/-- One listing step changes the combined size of the non-`diverged`,
non-`unpushed_ahead` `problems` entries by the size of the category just
listed, unless that category is `diverged`, `unpushed_ahead` or `clean`. -/
theorem listing_step_other_sum (f : Status → List String)
    (divI : List (String × (Int × Int))) (upI : List (String × List String))
    (skip_clean : Bool) (acc : List String × List (Status × List String)) (k : Status) :
    (((listing_step f divI upI skip_clean acc k).2.filter
        (fun kv => !(kv.1 == Status.diverged || kv.1 == Status.unpushed_ahead))).map
      (fun kv => kv.2.length)).sum =
    ((acc.2.filter
        (fun kv => !(kv.1 == Status.diverged || kv.1 == Status.unpushed_ahead))).map
      (fun kv => kv.2.length)).sum +
    (if k = Status.diverged ∨ k = Status.unpushed_ahead ∨ k = Status.clean
      then 0 else (f k).length) := by
  unfold listing_step
  by_cases hE : (f k).isEmpty = true
  · rw [if_pos hE]
    have h0 : (f k).length = 0 := by
      rw [List.isEmpty_iff] at hE
      simp [hE]
    cases k <;> simp [h0]
  · rw [if_neg hE]
    by_cases hks : (k == Status.clean && skip_clean) = true
    · rw [if_pos hks]
      have hk : k = Status.clean := by
        have := Bool.and_elim_left hks
        simpa using this
      simp [hk]
    · rw [if_neg hks]
      cases k <;> simp [List.filter_append]

/-- Folding the listing over any category sequence accumulates, as the
"other problems" size, the sizes of the listed categories other than
`diverged`, `unpushed_ahead` and `clean`. -/
theorem listing_fold_other_sum (f : Status → List String)
    (divI : List (String × (Int × Int))) (upI : List (String × List String))
    (skip_clean : Bool) (ks : List Status)
    (acc : List String × List (Status × List String)) :
    (((ks.foldl (listing_step f divI upI skip_clean) acc).2.filter
        (fun kv => !(kv.1 == Status.diverged || kv.1 == Status.unpushed_ahead))).map
      (fun kv => kv.2.length)).sum =
    ((acc.2.filter
        (fun kv => !(kv.1 == Status.diverged || kv.1 == Status.unpushed_ahead))).map
      (fun kv => kv.2.length)).sum +
    (ks.map (fun k =>
      if k = Status.diverged ∨ k = Status.unpushed_ahead ∨ k = Status.clean
        then 0 else (f k).length)).sum := by
  induction ks generalizing acc with
  | nil => simp
  | cons k ks ih =>
    rw [List.foldl_cons, ih, listing_step_other_sum]
    simp [Nat.add_assoc]

/-- C9 counterexample: with no repositories at all and the clean listing
not suppressed, the summary is exactly the header plus the "no problems"
line — no clean count line (which would read `Clean: 0`) is printed, so
"whenever the clean listing is not suppressed it also prints the clean
count" fails. -/
theorem print_results_clean_zero_counterexample :
    print_results (fun _ => []) [] [] false =
      ["", BLU ++ "Summary" ++ RST, "  " ++ GRN ++ "No problem repos detected." ++ RST] ∧
    ¬(("  " ++ GRN ++ "Clean: 0" ++ RST) ∈ print_results (fun _ => []) [] [] false) := by
  refine ⟨by decide, by decide⟩

/-- C9 amended: after the per-category listing, `print_results` emits a
summary block with the `diverged` count, the `unpushed_ahead` count, the
combined count of the other non-clean categories (each line omitted when
its count is zero), a single "no problems" line when all three are zero,
and — only when the clean listing is not suppressed and at least one
clean repository exists — the clean count. -/
theorem print_results_summary_block (f : Status → List String)
    (divI : List (String × (Int × Int))) (upI : List (String × List String))
    (skip_clean : Bool) :
    ∃ listing : List String,
      print_results f divI upI skip_clean =
        listing ++ [""] ++ [BLU ++ "Summary" ++ RST] ++
        (if (f Status.diverged).length ≠ 0 then
          ["  " ++ RED ++ "Diverged: " ++ toString (f Status.diverged).length ++ RST] else []) ++
        (if (f Status.unpushed_ahead).length ≠ 0 then
          ["  " ++ YEL ++ "Unpushed (ahead): " ++
            toString (f Status.unpushed_ahead).length ++ RST] else []) ++
        (if ((f Status.bare).length + (f Status.detached_head).length +
            (f Status.uncommitted).length + (f Status.untracked).length +
            (f Status.no_upstream).length + (f Status.behind).length) ≠ 0 then
          ["  " ++ RED ++ "Other problems: " ++
            toString ((f Status.bare).length + (f Status.detached_head).length +
              (f Status.uncommitted).length + (f Status.untracked).length +
              (f Status.no_upstream).length + (f Status.behind).length) ++ RST] else []) ++
        (if (f Status.diverged).length = 0 ∧ (f Status.unpushed_ahead).length = 0 ∧
            ((f Status.bare).length + (f Status.detached_head).length +
             (f Status.uncommitted).length + (f Status.untracked).length +
             (f Status.no_upstream).length + (f Status.behind).length) = 0 then
          ["  " ++ GRN ++ "No problem repos detected." ++ RST] else []) ++
        (if (!skip_clean && !(f Status.clean).isEmpty) = true then
          ["  " ++ GRN ++ "Clean: " ++ toString (f Status.clean).length ++ RST] else []) := by
  refine ⟨(categories_order.foldl (listing_step f divI upI skip_clean) ([], [])).1, ?_⟩
  have hoc :
      (((categories_order.foldl (listing_step f divI upI skip_clean) ([], [])).2.filter
          (fun kv => !(kv.1 == Status.diverged || kv.1 == Status.unpushed_ahead))).map
        (fun kv => kv.2.length)).sum =
      (f Status.bare).length + (f Status.detached_head).length +
        (f Status.uncommitted).length + (f Status.untracked).length +
        (f Status.no_upstream).length + (f Status.behind).length := by
    rw [listing_fold_other_sum]
    simp [categories_order]
    omega
  simp only [print_results]
  rw [hoc]
